import Mathlib

set_option autoImplicit false

/-!
Shallow embedding of `src/analyzer.py` ("marketing fog" sentence analyzer).

Modelling conventions:
* Python strings are `List Char` (`Str`); slicing, `str.find` and `str.lower`
  are modelled explicitly.  `str.lower` is modelled as a per-character map
  (faithful for ASCII text; Python's full Unicode case mapping is abstracted
  to a character-wise function).
* Python `dict`s coming from the JSON rule files are association lists
  `List (String × α)`; `d[k]` is `getKey` (raising `KeyError` becomes
  `Except.error k`), `d.get(k)` is `lookup`.
* The five configured regular expressions are abstracted as match-span
  producers (`RegexM`); Python's `re` module guarantees every match `m`
  satisfies `0 ≤ m.start() ≤ m.end() ≤ len(text)`, captured by `RegexM.WF`.
* Fallible evaluation (Python exceptions) is `Except String`.
-/

namespace Claimbs

/-- Python strings, modelled as lists of characters. -/
abbrev Str := List Char

/-- Coerce a Lean string literal to the `Str` model. -/
def strL (s : String) : Str := s.data

/-- Python slice `s[a:b]` (with Python's clamping semantics). -/
def slice (s : Str) (a b : Nat) : Str := (s.drop a).take (b - a)

/-- Character-wise model of `str.lower` (faithful on ASCII). -/
def pyLower (c : Char) : Char := c.toLower

/-- Model of `s.lower()`. -/
def lowerStr (s : Str) : Str := s.map pyLower

/-- `pat` occurs in `text` starting at index `i`. -/
def matchAt (text pat : Str) (i : Nat) : Bool := pat.isPrefixOf (text.drop i)

/-- Linear scan underlying `str.find`: try indices `i, i+1, ...` while fuel lasts. -/
def strFindAux (text pat : Str) : Nat → Nat → Option Nat
  | _, 0 => none
  | i, fuel+1 => if matchAt text pat i then some i else strFindAux text pat (i+1) fuel

/-- Python `text.find(pat, start)`: least index `≥ start` where `pat` occurs
(indices up to `len(text)` are candidates), `none` for Python's `-1`. -/
def strFind (text pat : Str) (start : Nat) : Option Nat :=
  strFindAux text pat start (text.length + 1 - start)

/-- A located match: Python dict `{"start": .., "end": .., "text": ..}`. -/
structure Span where
  start : Nat
  «end» : Nat
  text : Str
deriving DecidableEq, Repr

/-- Python dict `{"type": .., "label": .., "spans": ..}` built by `make_flag`. -/
structure Flag where
  type : String
  label : String
  spans : List Span
deriving DecidableEq, Repr

/-- `make_flag` from the source. -/
def make_flag (flag_type : String) (label : String) (spans : List Span) : Flag :=
  ⟨flag_type, label, spans⟩

/-- Abstract compiled regular expression: the list of `(start, end)` pairs
`finditer` yields on a given text. -/
structure RegexM where
  run : Str → List (Nat × Nat)

/-- What Python's `re` guarantees of every match produced by `finditer`. -/
def RegexM.WF (r : RegexM) : Prop :=
  ∀ t m, m ∈ r.run t → m.1 ≤ m.2 ∧ m.2 ≤ t.length

/-- `find_spans_regex` from the source: one span per `finditer` match, with
`text` sliced from the original sentence. -/
def find_spans_regex (pattern : RegexM) (text : Str) : List Span :=
  (pattern.run text).map (fun m => ⟨m.1, m.2, slice text m.1 m.2⟩)

/-- The `while True` loop inside `find_phrase_spans`, for one phrase: find the
next occurrence at or after `start`, record its span, resume at its end.
Fuel `text_l.length + 1` bounds the iterations; for a non-empty phrase the
loop makes at most that many steps, and for an empty phrase the Python loop
does not terminate at all (so no finite behaviour is being modelled away). -/
def scanPhrase (text_l p_l original : Str) : Nat → Nat → List Span
  | _, 0 => []
  | start, fuel+1 =>
    match strFind text_l p_l start with
    | none => []
    | some idx =>
      ⟨idx, idx + p_l.length, slice original idx (idx + p_l.length)⟩ ::
        scanPhrase text_l p_l original (idx + p_l.length) fuel

/-- The `for p in phrases` loop of `find_phrase_spans`, accumulating `spans`. -/
def find_phrase_spans_loop (text_l original : Str) (acc : List Span) :
    List Str → List Span
  | [] => acc
  | p :: ps =>
      find_phrase_spans_loop text_l original
        (acc ++ scanPhrase text_l (lowerStr p) original 0 (text_l.length + 1)) ps

/-- `find_phrase_spans` from the source. -/
def find_phrase_spans (text_l : Str) (phrases : List Str) (original : Str) :
    List Span :=
  find_phrase_spans_loop text_l original [] phrases

/-- The 13 boolean features computed by `analyze_sentence` (the `features` dict). -/
structure Features where
  outcome_present : Bool
  speed_present : Bool
  hedge_present : Bool
  superlative_present : Bool
  proof_implied : Bool
  buzzword_present : Bool
  mechanism_present : Bool
  values_present : Bool
  metric_present : Bool
  timeframe_present : Bool
  baseline_present : Bool
  scope_present : Bool
  passive_present : Bool
deriving DecidableEq, Repr

/-- Python `features.get(k, False)`: string-keyed access into the feature dict. -/
def featGet (f : Features) (k : String) : Bool :=
  if k = "outcome_present" then f.outcome_present
  else if k = "speed_present" then f.speed_present
  else if k = "hedge_present" then f.hedge_present
  else if k = "superlative_present" then f.superlative_present
  else if k = "proof_implied" then f.proof_implied
  else if k = "buzzword_present" then f.buzzword_present
  else if k = "mechanism_present" then f.mechanism_present
  else if k = "values_present" then f.values_present
  else if k = "metric_present" then f.metric_present
  else if k = "timeframe_present" then f.timeframe_present
  else if k = "baseline_present" then f.baseline_present
  else if k = "scope_present" then f.scope_present
  else if k = "passive_present" then f.passive_present
  else false

/-- Python `d.get(k)` on a JSON-object dict modelled as an association list
(configuration keys are assumed distinct, as in a JSON object). -/
def lookup {α : Type} : List (String × α) → String → Option α
  | [], _ => none
  | (k', v) :: rest, k => if k' = k then some v else lookup rest k

/-- Python `d[k]`: a missing key raises `KeyError(k)`. -/
def getKey {α : Type} (l : List (String × α)) (k : String) : Except String α :=
  match lookup l k with
  | some v => .ok v
  | none => .error k

/-- The four JSON rule documents, as loaded by `Analyzer.__init__`
(`lexicons.json`, `regex.json` already compiled to matchers, `weights.json`,
`semantic_classes.json`; each class rule is itself a dict). -/
structure RawConfig where
  lex : List (String × List Str)
  rx : List (String × RegexM)
  wt : List (String × List (String × Int))
  sc : List (String × List (String × List String))

/-- The `Analyzer` object after `__init__`. -/
structure Analyzer where
  lex : List (String × List Str)
  wt : List (String × List (String × Int))
  sc : List (String × List (String × List String))
  re_number_unit : RegexM
  re_timeframe : RegexM
  re_baseline : RegexM
  re_scope : RegexM
  re_passive : RegexM

/-- `Analyzer.__init__`: stores `lex`, `wt`, `sc` unvalidated and looks up the
five regex keys (compilation with `re.IGNORECASE` is folded into the abstract
matcher).  Only the regex-key accesses can fail here. -/
def Analyzer.init (raw : RawConfig) : Except String Analyzer :=
  match getKey raw.rx "number_unit" with
  | .error e => .error e
  | .ok rnu =>
    match getKey raw.rx "timeframe" with
    | .error e => .error e
    | .ok rtf =>
      match getKey raw.rx "baseline" with
      | .error e => .error e
      | .ok rbl =>
        match getKey raw.rx "scope" with
        | .error e => .error e
        | .ok rsc =>
          match getKey raw.rx "passive" with
          | .error e => .error e
          | .ok rpv => .ok ⟨raw.lex, raw.wt, raw.sc, rnu, rtf, rbl, rsc, rpv⟩

/-- The eight lexicon lists fetched at the start of `analyze_sentence`. -/
structure Lex8 where
  outcome_verbs : List Str
  speed_words : List Str
  hedges : List Str
  superlatives : List Str
  proof_theater : List Str
  buzzwords : List Str
  mechanism_tokens : List Str
  values_language : List Str

/-- The eight `self.lex[...]` accesses of `analyze_sentence`, in source order
(each may raise `KeyError`). -/
def getLexicons (lex : List (String × List Str)) : Except String Lex8 :=
  match getKey lex "outcome_verbs" with
  | .error e => .error e
  | .ok ov =>
    match getKey lex "speed_words" with
    | .error e => .error e
    | .ok sw =>
      match getKey lex "hedges" with
      | .error e => .error e
      | .ok hd =>
        match getKey lex "superlatives" with
        | .error e => .error e
        | .ok su =>
          match getKey lex "proof_theater" with
          | .error e => .error e
          | .ok pt =>
            match getKey lex "buzzwords" with
            | .error e => .error e
            | .ok bz =>
              match getKey lex "mechanism_tokens" with
              | .error e => .error e
              | .ok mt =>
                match getKey lex "values_language" with
                | .error e => .error e
                | .ok vl => .ok ⟨ov, sw, hd, su, pt, bz, mt, vl⟩

/-- The thirteen span lists computed in `analyze_sentence`. -/
structure SpanSets where
  outcome_spans : List Span
  speed_spans : List Span
  hedge_spans : List Span
  super_spans : List Span
  proof_spans : List Span
  buzz_spans : List Span
  mech_spans : List Span
  values_spans : List Span
  metric_spans : List Span
  timeframe_spans : List Span
  baseline_spans : List Span
  scope_spans : List Span
  passive_spans : List Span

/-- Lines 65–79 of the source: phrase spans over the lowercased sentence,
regex spans over the original sentence. -/
def computeSpans (A : Analyzer) (L : Lex8) (s s_l : Str) : SpanSets where
  outcome_spans := find_phrase_spans s_l L.outcome_verbs s
  speed_spans := find_phrase_spans s_l L.speed_words s
  hedge_spans := find_phrase_spans s_l L.hedges s
  super_spans := find_phrase_spans s_l L.superlatives s
  proof_spans := find_phrase_spans s_l L.proof_theater s
  buzz_spans := find_phrase_spans s_l L.buzzwords s
  mech_spans := find_phrase_spans s_l L.mechanism_tokens s
  values_spans := find_phrase_spans s_l L.values_language s
  metric_spans := find_spans_regex A.re_number_unit s
  timeframe_spans := find_spans_regex A.re_timeframe s
  baseline_spans := find_spans_regex A.re_baseline s
  scope_spans := find_spans_regex A.re_scope s
  passive_spans := find_spans_regex A.re_passive s

/-- Lines 82–97 of the source: each feature is the non-emptiness of its span list. -/
def computeFeatures (sp : SpanSets) : Features where
  outcome_present := !sp.outcome_spans.isEmpty
  speed_present := !sp.speed_spans.isEmpty
  hedge_present := !sp.hedge_spans.isEmpty
  superlative_present := !sp.super_spans.isEmpty
  proof_implied := !sp.proof_spans.isEmpty
  buzzword_present := !sp.buzz_spans.isEmpty
  mechanism_present := !sp.mech_spans.isEmpty
  values_present := !sp.values_spans.isEmpty
  metric_present := !sp.metric_spans.isEmpty
  timeframe_present := !sp.timeframe_spans.isEmpty
  baseline_present := !sp.baseline_spans.isEmpty
  scope_present := !sp.scope_spans.isEmpty
  passive_present := !sp.passive_spans.isEmpty

/-- Lines 100–104 of the source: `self.sc.get("values_non_operational")`,
Python truthiness of the rule dict (`if rule:` — an empty dict is falsy),
then `all(...) and all(...)` with short-circuiting, where `rule["requires"]`
and `rule["forbids"]` may raise `KeyError`. -/
def computeClass (sc : List (String × List (String × List String)))
    (f : Features) : Except String String :=
  match lookup sc "values_non_operational" with
  | none => .ok "operational_or_mixed"
  | some rule =>
    if rule.isEmpty then .ok "operational_or_mixed"
    else
      match getKey rule "requires" with
      | .error e => .error e
      | .ok req =>
        if req.all (fun k => featGet f k) then
          match getKey rule "forbids" with
          | .error e => .error e
          | .ok forb =>
            if forb.all (fun k => !featGet f k) then .ok "values_non_operational"
            else .ok "operational_or_mixed"
        else .ok "operational_or_mixed"

/-- The six alternatives of the hard-coded `process_no_levers` regular
expression on line 141 of the source. -/
def processWords : List Str :=
  [strL "discovery", strL "strategy", strL "execution", strL "optimization",
   strL "planning process", strL "customer journey"]

/-- Model of regex `\w` (faithful on ASCII, which covers the alternatives of
the hard-coded pattern and the lowercased sentences considered here). -/
def isWordChar (c : Char) : Bool := c.isAlphanum || c = '_'

/-- One position of `re.search(r"\b(...)\b", s_l)` for an alternative `w`:
`w` occurs at `i` with a word boundary on each side.  Every alternative
begins and ends with a word character, so the boundary conditions reduce to
the neighbouring character (if any) not being a word character. -/
def wordBoundaryMatchAt (s w : Str) (i : Nat) : Bool :=
  matchAt s w i &&
    (decide (i = 0) || !isWordChar (s.getD (i - 1) ' ')) &&
    (decide (s.length ≤ i + w.length) || !isWordChar (s.getD (i + w.length) ' '))

/-- Truthiness of `re.search(r"\b(discovery|strategy|execution|optimization|planning process|customer journey)\b", s_l)`. -/
def process_search (s_l : Str) : Bool :=
  processWords.any (fun w =>
    (List.range (s_l.length + 1)).any (fun i => wordBoundaryMatchAt s_l w i))

/-- One `if` of the penalty block (lines 113–151): trigger condition, rule
name (= weight key = flag type), flag label, flag spans. -/
structure RuleEntry where
  trigger : Bool
  name : String
  label : String
  spans : List Span

/-- The ten penalty rules of `analyze_sentence`, in source order. -/
def ruleEntries (f : Features) (sp : SpanSets) (s s_l : Str) : List RuleEntry :=
  [⟨f.outcome_present && !f.metric_present, "outcome_without_metric",
      "Outcome claim without metric", sp.outcome_spans⟩,
   ⟨f.speed_present && !f.timeframe_present, "speed_without_timeframe",
      "Speed claim without timeframe", sp.speed_spans⟩,
   ⟨f.outcome_present && !f.baseline_present, "outcome_without_baseline",
      "Outcome claim without baseline", sp.outcome_spans⟩,
   ⟨f.outcome_present && !f.scope_present, "outcome_without_scope",
      "Outcome claim without scope", sp.outcome_spans⟩,
   ⟨f.proof_implied, "proof_implied_no_evidence",
      "Proof implied without evidence structure", sp.proof_spans⟩,
   ⟨f.buzzword_present && !f.mechanism_present, "buzzword_no_mechanism",
      "Buzzword used as mechanism substitute", sp.buzz_spans⟩,
   ⟨f.outcome_present && !f.mechanism_present, "outcome_without_mechanism",
      "Outcome claim without concrete mechanism", sp.outcome_spans⟩,
   ⟨process_search s_l && !f.mechanism_present, "process_no_levers",
      "Process language without levers", [⟨0, s.length, s⟩]⟩,
   ⟨f.passive_present, "passive_voice",
      "Passive voice / agency evasion", sp.passive_spans⟩,
   ⟨f.superlative_present && !f.metric_present, "superlative_unbounded",
      "Superlative without constraint", sp.super_spans⟩]

/-- The penalty block: for each triggered rule, in order, fetch its weight
from `P` (`KeyError` possible), add it to the running total and append the
flag.  Returns the flag list and the `penalties` total. -/
def applyRules (P : List (String × Int)) : List RuleEntry → Except String (List Flag × Int)
  | [] => .ok ([], 0)
  | e :: rest =>
    if e.trigger then
      match getKey P e.name with
      | .error err => .error err
      | .ok w =>
        match applyRules P rest with
        | .error err => .error err
        | .ok (fs, pen) => .ok (make_flag e.name e.label e.spans :: fs, w + pen)
    else applyRules P rest

/-- The bonus block (lines 154–159): for each of the five features that is
true, in source order, fetch its weight from `B` and add it. -/
def applyBonuses (B : List (String × Int)) (f : Features) : Except String Int :=
  match (if f.metric_present then getKey B "metric_present" else .ok 0) with
  | .error e => .error e
  | .ok b1 =>
    match (if f.timeframe_present then getKey B "timeframe_present" else .ok 0) with
    | .error e => .error e
    | .ok b2 =>
      match (if f.baseline_present then getKey B "baseline_present" else .ok 0) with
      | .error e => .error e
      | .ok b3 =>
        match (if f.mechanism_present then getKey B "mechanism_present" else .ok 0) with
        | .error e => .error e
        | .ok b4 =>
          match (if f.scope_present then getKey B "scope_present" else .ok 0) with
          | .error e => .error e
          | .ok b5 => .ok (b1 + b2 + b3 + b4 + b5)

/-- The `score_breakdown` dict. -/
structure ScoreBreakdown where
  penalties : Int
  bonus : Int
deriving DecidableEq, Repr

/-- The `SentenceAnalysis` dataclass. -/
structure SentenceAnalysis where
  sentence : Str
  semantic_class : String
  features : Features
  flags : List Flag
  score_breakdown : ScoreBreakdown
  total_score : Int
deriving DecidableEq, Repr

instance : Inhabited SentenceAnalysis :=
  ⟨⟨[], "", ⟨false, false, false, false, false, false, false, false, false,
      false, false, false, false⟩, [], ⟨0, 0⟩, 0⟩⟩

/-- `Analyzer.analyze_sentence`, with the source's evaluation (and failure)
order: lexicon lookups, span/feature computation, semantic class, the two
weight-table lookups, the penalty rules, the bonuses, then
`total = max(0, min(100, penalties - bonus))`. -/
def Analyzer.analyze_sentence (A : Analyzer) (s : Str) : Except String SentenceAnalysis :=
  match getLexicons A.lex with
  | .error e => .error e
  | .ok L =>
    let s_l := lowerStr s
    let sp := computeSpans A L s s_l
    let f := computeFeatures sp
    match computeClass A.sc f with
    | .error e => .error e
    | .ok cls =>
      match getKey A.wt "penalties" with
      | .error e => .error e
      | .ok P =>
        match getKey A.wt "bonuses" with
        | .error e => .error e
        | .ok B =>
          match applyRules P (ruleEntries f sp s s_l) with
          | .error e => .error e
          | .ok (flags, penalties) =>
            match applyBonuses B f with
            | .error e => .error e
            | .ok bonus =>
              .ok { sentence := s, semantic_class := cls, features := f,
                    flags := flags,
                    score_breakdown := ⟨penalties, bonus⟩,
                    total_score := max 0 (min 100 (penalties - bonus)) }

/-- Characters matched by regex `\s` (ASCII whitespace). -/
def pyIsSpace (c : Char) : Bool :=
  c = ' ' || c = '\t' || c = '\n' || c = '\r' || c = '\x0b' || c = '\x0c'

/-- Python `str.strip()`. -/
def stripChars (s : Str) : Str :=
  ((s.dropWhile pyIsSpace).reverse.dropWhile pyIsSpace).reverse

/-- `re.sub(r"\s+", " ", ·)`: every maximal whitespace run becomes one space. -/
def collapseWs : Str → Str
  | [] => []
  | c :: rest =>
    if pyIsSpace c && (rest.head?.elim false pyIsSpace) then collapseWs rest
    else (if pyIsSpace c then ' ' else c) :: collapseWs rest

/-- `re.split(r"(?<=[.!?])\s+", ·)` on whitespace-collapsed text: split at a
space whose predecessor is `.`, `!` or `?`, consuming the space.  `acc` holds
the current fragment reversed, so `acc.head?` is the previous character. -/
def sentSplitAux : Str → Str → List Str
  | acc, [] => [acc.reverse]
  | acc, c :: rest =>
    if pyIsSpace c &&
        (acc.head? = some '.' || acc.head? = some '!' || acc.head? = some '?') then
      acc.reverse :: sentSplitAux [] rest
    else sentSplitAux (c :: acc) rest

/-- `split_sentences` from the source. -/
def split_sentences (text : Str) : List Str :=
  let t := collapseWs (stripChars text)
  if t.isEmpty then []
  else ((sentSplitAux [] t).map stripChars).filter (fun p => !p.isEmpty)

/-- Python's round-half-to-even on rationals. -/
def rhe (y : ℚ) : ℤ :=
  let f : ℤ := ⌊y⌋
  let r : ℚ := y - (f : ℚ)
  if r < 1/2 then f else if 1/2 < r then f + 1 else if f % 2 = 0 then f else f + 1

/-- Python `round(x, 1)` (real-number arithmetic stands in for IEEE floats). -/
def pyRound1 (x : ℚ) : ℚ := ((rhe (10 * x) : ℤ) : ℚ) / 10

/-- The `label` helper inside `analyze_text` (lines 183–187). -/
def labelOf (x : ℚ) : String :=
  if x ≤ 25 then "Solid / operational"
  else if x ≤ 50 then "Soft marketing"
  else if x ≤ 75 then "High BS risk"
  else "Persuasion fog"

/-- Python `max(scores)` for a non-empty list (`0` is a dummy for `[]`,
unreachable at the call site). -/
def pyMax : List Int → Int
  | [] => 0
  | x :: xs => xs.foldl max x

/-- The `overall` dict of `analyze_text`.  The empty-input result carries no
`score_worst_sentence` / `pct_sentences_high_bs` keys, hence the `Option`s. -/
structure Overall where
  score_mean : ℚ
  score_worst_sentence : Option Int
  pct_sentences_high_bs : Option ℚ
  label : String
  n_sentences : Nat
deriving DecidableEq, Repr

/-- The dict returned by `analyze_text`. -/
structure TextResult where
  overall : Overall
  sentences : List SentenceAnalysis
deriving DecidableEq, Repr

/-- The list comprehension `[self.analyze_sentence(s) for s in sents]`:
the first exception aborts the whole call. -/
def mapExcept {α β : Type} (g : α → Except String β) : List α → Except String (List β)
  | [] => .ok []
  | x :: xs =>
    match g x with
    | .error e => .error e
    | .ok y =>
      match mapExcept g xs with
      | .error e => .error e
      | .ok ys => .ok (y :: ys)

/-- `Analyzer.analyze_text`: note that `label` is applied to the *unrounded*
mean, while `score_mean` reports the mean rounded to one decimal. -/
def Analyzer.analyze_text (A : Analyzer) (text : Str) : Except String TextResult :=
  match mapExcept A.analyze_sentence (split_sentences text) with
  | .error e => .error e
  | .ok analyses =>
    if analyses.isEmpty then .ok ⟨⟨0, none, none, "Empty", 0⟩, []⟩
    else
      let scores := analyses.map SentenceAnalysis.total_score
      let n : ℚ := (scores.length : ℚ)
      let mean : ℚ := ((scores.sum : ℤ) : ℚ) / n
      let worst : Int := pyMax scores
      let pct_high : ℚ := 100 * ((scores.filter (fun x => 51 ≤ x)).length : ℚ) / n
      .ok ⟨⟨pyRound1 mean, some worst, some (pyRound1 pct_high), labelOf mean,
            analyses.length⟩, analyses⟩

/-- Well-formedness of an analyzer's five abstract regex matchers (what
Python's `re` module guarantees about `finditer`). -/
def Analyzer.WF (A : Analyzer) : Prop :=
  A.re_number_unit.WF ∧ A.re_timeframe.WF ∧ A.re_baseline.WF ∧
    A.re_scope.WF ∧ A.re_passive.WF

/-- The condition under which a *successful* classification assigns
`"values_non_operational"`: the class rule exists, is a non-empty (truthy)
dict, all `requires` features hold and all `forbids` features fail.  (The
`none` fallbacks for the inner keys are unreachable on runs that do not
raise `KeyError`.) -/
def valuesClassCond (sc : List (String × List (String × List String)))
    (f : Features) : Bool :=
  match lookup sc "values_non_operational" with
  | none => false
  | some rule =>
    !rule.isEmpty &&
      (match lookup rule "requires" with
       | none => false
       | some req =>
         req.all (featGet f) &&
           (match lookup rule "forbids" with
            | none => false
            | some forb => forb.all (fun k => !featGet f k)))

/-! ### Concrete configurations used by witnesses and counterexamples -/

/-- A matcher that never matches (models a pattern matching nothing). -/
def rxNone : RegexM := ⟨fun _ => []⟩

/-- A matcher matching the first two characters of any text of length ≥ 2
(models e.g. a two-character pattern anchored at the start). -/
def rxHead2 : RegexM := ⟨fun t => if 2 ≤ t.length then [(0, 2)] else []⟩

/-- A full penalty-weight table. -/
def penAll : List (String × Int) :=
  [("outcome_without_metric", 15), ("speed_without_timeframe", 10),
   ("outcome_without_baseline", 12), ("outcome_without_scope", 8),
   ("proof_implied_no_evidence", 20), ("buzzword_no_mechanism", 10),
   ("outcome_without_mechanism", 10), ("process_no_levers", 10),
   ("passive_voice", 5), ("superlative_unbounded", 10)]

/-- A full bonus-weight table. -/
def bonAll : List (String × Int) :=
  [("metric_present", 10), ("timeframe_present", 5), ("baseline_present", 10),
   ("mechanism_present", 10), ("scope_present", 5)]

/-- A small lexicon table containing all eight required keys. -/
def lexBase : List (String × List Str) :=
  [("outcome_verbs", [strL "boost"]), ("speed_words", []), ("hedges", []),
   ("superlatives", []), ("proof_theater", []), ("buzzwords", [strL "synergy"]),
   ("mechanism_tokens", []), ("values_language", [strL "integrity"])]

/-- A `semantic_classes` table defining the consulted class. -/
def scValues : List (String × List (String × List String)) :=
  [("values_non_operational",
    [("requires", ["values_present"]), ("forbids", ["metric_present"])])]

/-- A complete, valid analyzer over the tables above. -/
def Abase : Analyzer :=
  { lex := lexBase, wt := [("penalties", penAll), ("bonuses", bonAll)],
    sc := scValues, re_number_unit := rxNone, re_timeframe := rxNone,
    re_baseline := rxNone, re_scope := rxNone, re_passive := rxNone }

/-- `Abase` with a passive-voice matcher that actually matches. -/
def Arx : Analyzer := { Abase with re_passive := rxHead2 }

def sC1 : Str := strL "Boost sales."

def aC1 : SentenceAnalysis := (Abase.analyze_sentence sC1).toOption.getD default

def aC2 : SentenceAnalysis := (Arx.analyze_sentence sC1).toOption.getD default

def flC2 : Flag := aC2.flags.getD 0 ⟨"", "", []⟩

def spC2 : Span := flC2.spans.getD 0 ⟨0, 0, []⟩

def aC9 : SentenceAnalysis := aC1

/-- A raw configuration whose lexicon table lacks `outcome_verbs` but is
otherwise complete. -/
def rawMissingLex : RawConfig :=
  { lex := [("speed_words", []), ("hedges", []), ("superlatives", []),
            ("proof_theater", []), ("buzzwords", []), ("mechanism_tokens", []),
            ("values_language", [])],
    rx := [("number_unit", rxNone), ("timeframe", rxNone), ("baseline", rxNone),
           ("scope", rxNone), ("passive", rxNone)],
    wt := [("penalties", penAll), ("bonuses", bonAll)],
    sc := [] }

/-- A raw configuration whose regex table lacks `baseline` but is otherwise
complete. -/
def rawMissingRx : RawConfig :=
  { lex := lexBase,
    rx := [("number_unit", rxNone), ("timeframe", rxNone),
           ("scope", rxNone), ("passive", rxNone)],
    wt := [("penalties", penAll), ("bonuses", bonAll)],
    sc := [] }

/-- Penalty table with a low `outcome_without_metric` weight and all other
weights zero. -/
def penLow : List (String × Int) :=
  [("outcome_without_metric", 10), ("speed_without_timeframe", 0),
   ("outcome_without_baseline", 0), ("outcome_without_scope", 0),
   ("proof_implied_no_evidence", 0), ("buzzword_no_mechanism", 0),
   ("outcome_without_mechanism", 0), ("process_no_levers", 0),
   ("passive_voice", 0), ("superlative_unbounded", 0)]

/-- `penLow` with only the `outcome_without_metric` weight raised to 200. -/
def penHigh : List (String × Int) :=
  [("outcome_without_metric", 200), ("speed_without_timeframe", 0),
   ("outcome_without_baseline", 0), ("outcome_without_scope", 0),
   ("proof_implied_no_evidence", 0), ("buzzword_no_mechanism", 0),
   ("outcome_without_mechanism", 0), ("process_no_levers", 0),
   ("passive_voice", 0), ("superlative_unbounded", 0)]

/-- `Abase` with the `penLow` weights. -/
def A5a : Analyzer := { Abase with wt := [("penalties", penLow), ("bonuses", bonAll)] }

/-- `Abase` with the `penHigh` weights — differing from `A5a` only in the
`outcome_without_metric` penalty weight. -/
def A5b : Analyzer := { Abase with wt := [("penalties", penHigh), ("bonuses", bonAll)] }

def aC5a : SentenceAnalysis := (A5a.analyze_sentence sC1).toOption.getD default

def aC5b : SentenceAnalysis := (A5b.analyze_sentence sC1).toOption.getD default

/-- Penalty table making an outcome-without-metric sentence score 26 and a
process-language sentence score 25. -/
def penC4 : List (String × Int) :=
  [("outcome_without_metric", 26), ("speed_without_timeframe", 0),
   ("outcome_without_baseline", 0), ("outcome_without_scope", 0),
   ("proof_implied_no_evidence", 0), ("buzzword_no_mechanism", 0),
   ("outcome_without_mechanism", 0), ("process_no_levers", 25),
   ("passive_voice", 0), ("superlative_unbounded", 0)]

/-- `Abase` with the `penC4` weights. -/
def A4 : Analyzer := { Abase with wt := [("penalties", penC4), ("bonuses", bonAll)] }

/-- A 25-sentence text: one sentence scoring 26 and twenty-four scoring 25
under `A4`, so the mean is `626/25 = 25.04`. -/
def T4 : Str := strL
  "boost. strategy. strategy. strategy. strategy. strategy. strategy. strategy. strategy. strategy. strategy. strategy. strategy. strategy. strategy. strategy. strategy. strategy. strategy. strategy. strategy. strategy. strategy. strategy. strategy."

def analysesC4 : List SentenceAnalysis :=
  (mapExcept A4.analyze_sentence (split_sentences T4)).toOption.getD []

def tC4w : Str := strL "boost. strategy."

def rC4w : TextResult :=
  (Abase.analyze_text tC4w).toOption.getD ⟨⟨0, none, none, "", 0⟩, []⟩

/-- Modelled from the spec's words (§4.2 phrase mode): the left-to-right,
non-overlapping occurrence indices of one lowercased phrase, each search
resuming immediately after the previous match's end (`idx + len`), so that
immediately adjacent occurrences are both found but overlapping ones are
not.  Same fuel convention as `scanPhrase`. -/
def specOccs (text_l p_l : Str) : Nat → Nat → List Nat
  | _, 0 => []
  | start, fuel+1 =>
    match strFind text_l p_l start with
    | none => []
    | some idx => idx :: specOccs text_l p_l (idx + p_l.length) fuel

/-- Modelled from the spec's words (§4.2 phrase mode): all matches across all
phrases concatenated in phrase-list order (not sentence order), each span
covering one case-insensitive occurrence with its text taken from the
original sentence. -/
def specPhraseSpans (text_l : Str) (phrases : List Str) (original : Str) :
    List Span :=
  phrases.flatMap (fun p =>
    (specOccs text_l (lowerStr p) 0 (text_l.length + 1)).map
      (fun idx => ⟨idx, idx + (lowerStr p).length,
        slice original idx (idx + (lowerStr p).length)⟩))

/-- Modelled from the claim's words (spec §4.4, multi-class sentence):
iterate the declared classes in configuration order; the first class whose
`requires` features are all true and whose `forbids` features are all false
wins; default otherwise. -/
def specClassifyIterate (sc : List (String × List (String × List String)))
    (f : Features) : String :=
  match sc with
  | [] => "operational_or_mixed"
  | (name, rule) :: rest =>
    if ((lookup rule "requires").getD []).all (featGet f) &&
        ((lookup rule "forbids").getD []).all (fun k => !featGet f k) then name
    else specClassifyIterate rest f

/-- A `semantic_classes` table declaring two classes, the first of which
(`"alpha"`) matches every feature map. -/
def scTwo : List (String × List (String × List String)) :=
  [("alpha", [("requires", []), ("forbids", [])]),
   ("values_non_operational", [("requires", ["values_present"]), ("forbids", [])])]

/-- `Abase` with the two-class table. -/
def A6 : Analyzer := { Abase with sc := scTwo }

def aC6 : SentenceAnalysis := (A6.analyze_sentence sC1).toOption.getD default

def sC10 : Str := strL "Integrity matters."

def aC10 : SentenceAnalysis := (Abase.analyze_sentence sC10).toOption.getD default

/-! ### Helper lemmas -/

theorem rxNone_wf : rxNone.WF := by
  intro t m hm
  simp [rxNone] at hm

theorem rxHead2_wf : rxHead2.WF := by
  intro t m hm
  simp only [rxHead2] at hm
  split at hm
  next h2 =>
    rcases List.mem_singleton.mp hm with rfl
    exact ⟨by omega, h2⟩
  next => simp at hm

theorem strFindAux_some {text pat : Str} :
    ∀ {fuel i j : Nat}, strFindAux text pat i fuel = some j →
      i ≤ j ∧ j < i + fuel ∧ matchAt text pat j = true := by
  intro fuel
  induction fuel with
  | zero => intro i j h; simp [strFindAux] at h
  | succ n ih =>
    intro i j h
    rw [strFindAux] at h
    by_cases hm : matchAt text pat i = true
    · rw [if_pos hm] at h
      obtain rfl : i = j := Option.some.inj h
      exact ⟨le_rfl, by omega, hm⟩
    · rw [if_neg hm] at h
      obtain ⟨h1, h2, h3⟩ := ih h
      exact ⟨by omega, by omega, h3⟩

theorem strFind_some {text pat : Str} {start j : Nat}
    (h : strFind text pat start = some j) :
    start ≤ j ∧ j ≤ text.length ∧ matchAt text pat j = true := by
  unfold strFind at h
  obtain ⟨h1, h2, h3⟩ := strFindAux_some h
  refine ⟨h1, by omega, h3⟩

theorem matchAt_add_le {text pat : Str} {i : Nat}
    (h : matchAt text pat i = true) (hi : i ≤ text.length) :
    i + pat.length ≤ text.length := by
  unfold matchAt at h
  have hp : pat <+: text.drop i := by
    rwa [← List.isPrefixOf_iff_prefix]
  have := hp.length_le
  rw [List.length_drop] at this
  omega

theorem scanPhrase_mem {text_l p_l original : Str} :
    ∀ {fuel start : Nat} {sp : Span}, sp ∈ scanPhrase text_l p_l original start fuel →
      ∃ idx, sp = ⟨idx, idx + p_l.length, slice original idx (idx + p_l.length)⟩ ∧
        idx + p_l.length ≤ text_l.length := by
  intro fuel
  induction fuel with
  | zero => intro start sp h; simp [scanPhrase] at h
  | succ n ih =>
    intro start sp h
    rw [scanPhrase] at h
    cases hf : strFind text_l p_l start with
    | none => rw [hf] at h; simp at h
    | some idx =>
      rw [hf] at h
      obtain ⟨_, hle, hm⟩ := strFind_some hf
      rcases List.mem_cons.mp h with rfl | h'
      · exact ⟨idx, rfl, matchAt_add_le hm hle⟩
      · exact ih h'

theorem find_phrase_spans_loop_mem {text_l original : Str} :
    ∀ {ps : List Str} {acc : List Span} {sp : Span},
      sp ∈ find_phrase_spans_loop text_l original acc ps →
      sp ∈ acc ∨ ∃ p ∈ ps, sp ∈ scanPhrase text_l (lowerStr p) original 0 (text_l.length + 1) := by
  intro ps
  induction ps with
  | nil => intro acc sp h; exact Or.inl h
  | cons p ps ih =>
    intro acc sp h
    rw [find_phrase_spans_loop] at h
    rcases ih h with h' | ⟨q, hq, hsp⟩
    · rcases List.mem_append.mp h' with h'' | h''
      · exact Or.inl h''
      · exact Or.inr ⟨p, List.mem_cons_self .., h''⟩
    · exact Or.inr ⟨q, List.mem_cons_of_mem _ hq, hsp⟩

/-- Every span produced by phrase-mode matching is in bounds and its `text`
is the corresponding slice of the original sentence. -/
theorem find_phrase_spans_wf {text_l original : Str} {phrases : List Str} {sp : Span}
    (h : sp ∈ find_phrase_spans text_l phrases original) :
    sp.start ≤ sp.«end» ∧ sp.«end» ≤ text_l.length ∧
      sp.text = slice original sp.start sp.«end» := by
  rcases find_phrase_spans_loop_mem h with h' | ⟨p, _, hsp⟩
  · simp at h'
  · obtain ⟨idx, rfl, hle⟩ := scanPhrase_mem hsp
    exact ⟨by simp, hle, rfl⟩

/-- Every span produced by pattern-mode matching on a well-formed matcher is
in bounds and its `text` is the corresponding slice. -/
theorem find_spans_regex_wf {r : RegexM} {t : Str} {sp : Span}
    (hr : r.WF) (h : sp ∈ find_spans_regex r t) :
    sp.start ≤ sp.«end» ∧ sp.«end» ≤ t.length ∧
      sp.text = slice t sp.start sp.«end» := by
  unfold find_spans_regex at h
  obtain ⟨m, hm, rfl⟩ := List.mem_map.mp h
  obtain ⟨h1, h2⟩ := hr t m hm
  exact ⟨h1, h2, rfl⟩

theorem lowerStr_length (s : Str) : (lowerStr s).length = s.length :=
  List.length_map ..

theorem slice_zero_length (s : Str) : slice s 0 s.length = s := by
  simp [slice]

/-- Inversion of a successful `analyze_sentence` call: names each stage's
result and gives the shape of the returned record. -/
theorem analyze_sentence_ok_inv {A : Analyzer} {s : Str} {a : SentenceAnalysis}
    (h : A.analyze_sentence s = .ok a) :
    ∃ L cls P B flags penalties bonus,
      getLexicons A.lex = .ok L ∧
      computeClass A.sc (computeFeatures (computeSpans A L s (lowerStr s))) = .ok cls ∧
      getKey A.wt "penalties" = .ok P ∧
      getKey A.wt "bonuses" = .ok B ∧
      applyRules P (ruleEntries (computeFeatures (computeSpans A L s (lowerStr s)))
          (computeSpans A L s (lowerStr s)) s (lowerStr s)) = .ok (flags, penalties) ∧
      applyBonuses B (computeFeatures (computeSpans A L s (lowerStr s))) = .ok bonus ∧
      a = { sentence := s, semantic_class := cls,
            features := computeFeatures (computeSpans A L s (lowerStr s)),
            flags := flags, score_breakdown := ⟨penalties, bonus⟩,
            total_score := max 0 (min 100 (penalties - bonus)) } := by
  unfold Analyzer.analyze_sentence at h
  cases hL : getLexicons A.lex with
  | error e => rw [hL] at h; exact absurd h (by simp)
  | ok L =>
    rw [hL] at h
    dsimp only at h
    cases hcls : computeClass A.sc (computeFeatures (computeSpans A L s (lowerStr s))) with
    | error e => rw [hcls] at h; exact absurd h (by simp)
    | ok cls =>
      rw [hcls] at h
      dsimp only at h
      cases hP : getKey A.wt "penalties" with
      | error e => rw [hP] at h; exact absurd h (by simp)
      | ok P =>
        rw [hP] at h
        dsimp only at h
        cases hB : getKey A.wt "bonuses" with
        | error e => rw [hB] at h; exact absurd h (by simp)
        | ok B =>
          rw [hB] at h
          dsimp only at h
          cases hR : applyRules P (ruleEntries (computeFeatures (computeSpans A L s (lowerStr s)))
              (computeSpans A L s (lowerStr s)) s (lowerStr s)) with
          | error e => rw [hR] at h; exact absurd h (by simp)
          | ok pr =>
            obtain ⟨flags, penalties⟩ := pr
            rw [hR] at h
            dsimp only at h
            cases hBon : applyBonuses B (computeFeatures (computeSpans A L s (lowerStr s))) with
            | error e => rw [hBon] at h; exact absurd h (by simp)
            | ok bonus =>
              rw [hBon] at h
              dsimp only at h
              exact ⟨L, cls, P, B, flags, penalties, bonus,
                rfl, hcls, rfl, rfl, hR, hBon, (Except.ok.inj h).symm⟩

/-- The flag list of the penalty block consists of exactly the triggered
entries, in order, and the `penalties` total is the sum over the emitted
flags of the weight looked up at the flag's `type`. -/
theorem applyRules_ok_inv {P : List (String × Int)} :
    ∀ {entries : List RuleEntry} {fl : List Flag} {pen : Int},
      applyRules P entries = .ok (fl, pen) →
      fl = (entries.filter RuleEntry.trigger).map
          (fun e => make_flag e.name e.label e.spans) ∧
      pen = (fl.map (fun f => (lookup P f.type).getD 0)).sum := by
  intro entries
  induction entries with
  | nil =>
    intro fl pen h
    rw [applyRules] at h
    obtain ⟨rfl, rfl⟩ := Prod.mk.injEq .. ▸ Except.ok.inj h
    simp
  | cons e rest ih =>
    intro fl pen h
    rw [applyRules] at h
    by_cases ht : e.trigger
    · rw [if_pos ht] at h
      cases hw : getKey P e.name with
      | error err => rw [hw] at h; exact absurd h (by simp)
      | ok w =>
        rw [hw] at h
        cases hr : applyRules P rest with
        | error err => rw [hr] at h; exact absurd h (by simp)
        | ok pr =>
          obtain ⟨fs, pen'⟩ := pr
          rw [hr] at h
          obtain ⟨h1, h2⟩ := Prod.mk.injEq .. ▸ Except.ok.inj h
          obtain ⟨hfs, hpen⟩ := ih hr
          subst h1 h2 hfs
          have hwv : lookup P e.name = some w := by
            unfold getKey at hw
            cases hl : lookup P e.name with
            | none => rw [hl] at hw; exact absurd hw (by simp)
            | some v => rw [hl] at hw; exact congrArg some (Except.ok.inj hw)
          simp [List.filter_cons, ht, make_flag, hwv, hpen]
    · rw [if_neg ht] at h
      obtain ⟨hfs, hpen⟩ := ih h
      simp only [Bool.not_eq_true] at ht
      simp [List.filter_cons, ht, hfs, hpen]

/-- The bonus total is the sum, over the five bonus features that are true,
of the configured bonus weight. -/
theorem applyBonuses_ok_inv {B : List (String × Int)} {f : Features} {b : Int}
    (h : applyBonuses B f = .ok b) :
    b = (if f.metric_present then (lookup B "metric_present").getD 0 else 0) +
        (if f.timeframe_present then (lookup B "timeframe_present").getD 0 else 0) +
        (if f.baseline_present then (lookup B "baseline_present").getD 0 else 0) +
        (if f.mechanism_present then (lookup B "mechanism_present").getD 0 else 0) +
        (if f.scope_present then (lookup B "scope_present").getD 0 else 0) := by
  unfold applyBonuses at h
  split at h
  · exact absurd h (by simp)
  next b1 h1 =>
    split at h
    · exact absurd h (by simp)
    next b2 h2 =>
      split at h
      · exact absurd h (by simp)
      next b3 h3 =>
        split at h
        · exact absurd h (by simp)
        next b4 h4 =>
          split at h
          · exact absurd h (by simp)
          next b5 h5 =>
            obtain rfl := (Except.ok.inj h).symm
            have conv1 : ∀ (c : Bool) (k : String) (v : Int),
                (if c then getKey B k else .ok 0) = .ok v →
                v = (if c then (lookup B k).getD 0 else 0) := by
              intro c k v hv
              cases c with
              | false => simpa using (Except.ok.inj hv).symm
              | true =>
                simp only [if_true]
                simp only [if_true] at hv
                unfold getKey at hv
                cases hl : lookup B k with
                | none => rw [hl] at hv; exact absurd hv (by simp)
                | some w => rw [hl] at hv; simpa using (Except.ok.inj hv).symm
            rw [conv1 _ _ _ h1, conv1 _ _ _ h2, conv1 _ _ _ h3,
              conv1 _ _ _ h4, conv1 _ _ _ h5]

theorem getKey_ok_iff {α : Type} {l : List (String × α)} {k : String} {v : α} :
    getKey l k = .ok v ↔ lookup l k = some v := by
  unfold getKey
  cases lookup l k <;> simp

/-- A successful semantic classification yields one of exactly two strings. -/
theorem computeClass_ok_cases {sc : List (String × List (String × List String))}
    {f : Features} {cls : String} (h : computeClass sc f = .ok cls) :
    cls = "operational_or_mixed" ∨ cls = "values_non_operational" := by
  unfold computeClass at h
  split at h
  · exact Or.inl (Except.ok.inj h).symm
  next rule _ =>
    split at h
    · exact Or.inl (Except.ok.inj h).symm
    · split at h
      · exact absurd h (by simp)
      next req hreq =>
        split at h
        · split at h
          · exact absurd h (by simp)
          next forb hforb =>
            split at h
            · exact Or.inr (Except.ok.inj h).symm
            · exact Or.inl (Except.ok.inj h).symm
        · exact Or.inl (Except.ok.inj h).symm

/-- A successful classification assigns `"values_non_operational"` exactly
under `valuesClassCond`, and the default otherwise. -/
theorem computeClass_ok_eq {sc : List (String × List (String × List String))}
    {f : Features} {cls : String} (h : computeClass sc f = .ok cls) :
    cls = (if valuesClassCond sc f then "values_non_operational"
           else "operational_or_mixed") := by
  unfold computeClass at h
  split at h
  next hnone =>
    obtain rfl := (Except.ok.inj h).symm
    simp [valuesClassCond, hnone]
  next rule hsome =>
    split at h
    next hemp =>
      obtain rfl := (Except.ok.inj h).symm
      simp [valuesClassCond, hsome, hemp]
    next hemp =>
      rw [Bool.not_eq_true] at hemp
      split at h
      · exact absurd h (by simp)
      next req hreq =>
        rw [getKey_ok_iff] at hreq
        split at h
        next hall =>
          split at h
          · exact absurd h (by simp)
          next forb hforb =>
            rw [getKey_ok_iff] at hforb
            split at h
            next hfall =>
              obtain rfl := (Except.ok.inj h).symm
              simp [valuesClassCond, hsome, hemp, hreq, hall, hforb, hfall]
            next hfall =>
              rw [Bool.not_eq_true] at hfall
              obtain rfl := (Except.ok.inj h).symm
              simp [valuesClassCond, hsome, hemp, hreq, hall, hforb, hfall]
        next hall =>
          rw [Bool.not_eq_true] at hall
          obtain rfl := (Except.ok.inj h).symm
          simp [valuesClassCond, hsome, hemp, hreq, hall]

theorem phrase_span_wf {s : Str} {phrases : List Str} {sp : Span}
    (h : sp ∈ find_phrase_spans (lowerStr s) phrases s) :
    sp.start ≤ sp.«end» ∧ sp.«end» ≤ s.length ∧
      sp.text = slice s sp.start sp.«end» := by
  have := find_phrase_spans_wf h
  rwa [lowerStr_length] at this

/-! ### Claim theorems -/

/-- C1: for every sentence and rule configuration on which `analyze_sentence`
succeeds, `total_score` equals `clamp(penalties - bonus, 0, 100)` of the
values reported in `score_breakdown`, and `0 ≤ total_score ≤ 100`. -/
theorem C1_total_score_clamp (A : Analyzer) (s : Str) (a : SentenceAnalysis)
    (h : A.analyze_sentence s = .ok a) :
    a.total_score =
      max 0 (min 100 (a.score_breakdown.penalties - a.score_breakdown.bonus)) ∧
    0 ≤ a.total_score ∧ a.total_score ≤ 100 := by
  obtain ⟨L, cls, P, B, flags, pen, bon, hL, hcls, hP, hB, hR, hBon, rfl⟩ :=
    analyze_sentence_ok_inv h
  refine ⟨rfl, ?_, ?_⟩ <;> dsimp <;> omega

/-- C2: every span of every flag produced by a successful `analyze_sentence`
(over well-formed regex matchers) satisfies `0 ≤ start ≤ end ≤ len(sentence)`
and `text = sentence[start:end]` for the original (non-lowercased) sentence. -/
theorem C2_span_invariant (A : Analyzer) (s : Str) (a : SentenceAnalysis)
    (hwf : A.WF) (h : A.analyze_sentence s = .ok a) :
    ∀ fl ∈ a.flags, ∀ sp ∈ fl.spans,
      sp.start ≤ sp.«end» ∧ sp.«end» ≤ s.length ∧
        sp.text = slice s sp.start sp.«end» := by
  obtain ⟨L, cls, P, B, flags, pen, bon, hL, hcls, hP, hB, hR, hBon, rfl⟩ :=
    analyze_sentence_ok_inv h
  intro fl hfl sp hsp
  obtain ⟨hfl_eq, -⟩ := applyRules_ok_inv hR
  subst hfl_eq
  obtain ⟨e, he, rfl⟩ := List.mem_map.mp hfl
  have he' := List.mem_of_mem_filter he
  simp only [ruleEntries, List.mem_cons, List.not_mem_nil, or_false] at he'
  obtain ⟨hwf1, hwf2, hwf3, hwf4, hwf5⟩ := hwf
  simp only [make_flag] at hsp
  rcases he' with rfl | rfl | rfl | rfl | rfl | rfl | rfl | rfl | rfl | rfl <;>
    simp only [computeSpans] at hsp
  · exact phrase_span_wf hsp
  · exact phrase_span_wf hsp
  · exact phrase_span_wf hsp
  · exact phrase_span_wf hsp
  · exact phrase_span_wf hsp
  · exact phrase_span_wf hsp
  · exact phrase_span_wf hsp
  · rcases List.mem_singleton.mp hsp with rfl
    exact ⟨Nat.zero_le _, le_rfl, (slice_zero_length s).symm⟩
  · exact find_spans_regex_wf hwf5 hsp
  · exact phrase_span_wf hsp

/-- C9: on success, `penalties` is the sum over the emitted flags of the
configured penalty weight at the flag's `type`, and `bonus` is the sum of the
configured bonus weights of exactly the true bonus features. -/
theorem C9_breakdown_sums (A : Analyzer) (s : Str) (a : SentenceAnalysis)
    (P B : List (String × Int))
    (hP : lookup A.wt "penalties" = some P)
    (hB : lookup A.wt "bonuses" = some B)
    (h : A.analyze_sentence s = .ok a) :
    a.score_breakdown.penalties =
      (a.flags.map (fun f => (lookup P f.type).getD 0)).sum ∧
    a.score_breakdown.bonus =
      (if a.features.metric_present then (lookup B "metric_present").getD 0 else 0) +
      (if a.features.timeframe_present then (lookup B "timeframe_present").getD 0 else 0) +
      (if a.features.baseline_present then (lookup B "baseline_present").getD 0 else 0) +
      (if a.features.mechanism_present then (lookup B "mechanism_present").getD 0 else 0) +
      (if a.features.scope_present then (lookup B "scope_present").getD 0 else 0) := by
  obtain ⟨L, cls, P', B', flags, pen, bon, hL, hcls, hP', hB', hR, hBon, rfl⟩ :=
    analyze_sentence_ok_inv h
  rw [getKey_ok_iff] at hP' hB'
  rw [hP'] at hP
  rw [hB'] at hB
  obtain rfl := Option.some.inj hP
  obtain rfl := Option.some.inj hB
  exact ⟨(applyRules_ok_inv hR).2, applyBonuses_ok_inv hBon⟩

/-- C10: on success, `semantic_class` is one of exactly two strings,
whatever classes the configuration's `semantic_classes` table defines. -/
theorem C10_semantic_class_binary (A : Analyzer) (s : Str) (a : SentenceAnalysis)
    (h : A.analyze_sentence s = .ok a) :
    a.semantic_class = "operational_or_mixed" ∨
      a.semantic_class = "values_non_operational" := by
  obtain ⟨L, cls, P, B, flags, pen, bon, hL, hcls, hP, hB, hR, hBon, rfl⟩ :=
    analyze_sentence_ok_inv h
  exact computeClass_ok_cases hcls

/-- Witness for C1: a concrete run of `analyze_sentence` satisfying the clamp
equation and bounds. -/
theorem C1_witness :
    aC1.total_score =
      max 0 (min 100 (aC1.score_breakdown.penalties - aC1.score_breakdown.bonus)) ∧
    0 ≤ aC1.total_score ∧ aC1.total_score ≤ 100 :=
  C1_total_score_clamp Abase sC1 aC1 rfl

/-- Witness for C2: a concrete span (of a passive-voice flag produced by a
matching regex) satisfies the span invariant. -/
theorem C2_witness :
    spC2.start ≤ spC2.«end» ∧ spC2.«end» ≤ sC1.length ∧
      spC2.text = slice sC1 spC2.start spC2.«end» :=
  C2_span_invariant Arx sC1 aC2
    ⟨rxNone_wf, rxNone_wf, rxNone_wf, rxNone_wf, rxHead2_wf⟩ rfl
    flC2 (by decide) spC2 (by decide)

/-- Witness for C9: on a concrete run, the reported breakdown equals the
flag-wise penalty sum and the feature-wise bonus sum. -/
theorem C9_witness :
    aC9.score_breakdown.penalties =
      (aC9.flags.map (fun f => (lookup penAll f.type).getD 0)).sum ∧
    aC9.score_breakdown.bonus =
      (if aC9.features.metric_present then (lookup bonAll "metric_present").getD 0 else 0) +
      (if aC9.features.timeframe_present then (lookup bonAll "timeframe_present").getD 0 else 0) +
      (if aC9.features.baseline_present then (lookup bonAll "baseline_present").getD 0 else 0) +
      (if aC9.features.mechanism_present then (lookup bonAll "mechanism_present").getD 0 else 0) +
      (if aC9.features.scope_present then (lookup bonAll "scope_present").getD 0 else 0) :=
  C9_breakdown_sums Abase sC1 aC9 penAll bonAll rfl rfl rfl

/-- Witness for C10: a concrete run (which assigns the non-default class)
lands in the two-string range. -/
theorem C10_witness :
    aC10.semantic_class = "operational_or_mixed" ∨
      aC10.semantic_class = "values_non_operational" :=
  C10_semantic_class_binary Abase sC10 aC10 rfl

/-- C6 counterexample: under a configuration declaring two classes whose
first (`"alpha"`) fully matches, the claimed first-match iteration would
assign `"alpha"`, but the code (which consults only
`"values_non_operational"`) assigns the default class. -/
theorem C6_counterexample :
    (A6.analyze_sentence sC1).toOption.map SentenceAnalysis.semantic_class =
      some "operational_or_mixed" ∧
    specClassifyIterate A6.sc aC6.features = "alpha" := by
  constructor <;> rfl

/-- C6 (amended): classification consults only the class named
`"values_non_operational"`; it is assigned iff that class rule is present,
truthy, with all `requires` features true and all `forbids` features false;
otherwise the default `"operational_or_mixed"` stands.  Classes other than
`"values_non_operational"` are ignored. -/
theorem C6_only_values_class (A : Analyzer) (s : Str) (a : SentenceAnalysis)
    (h : A.analyze_sentence s = .ok a) :
    a.semantic_class =
      (if valuesClassCond A.sc a.features then "values_non_operational"
       else "operational_or_mixed") := by
  obtain ⟨L, cls, P, B, flags, pen, bon, hL, hcls, hP, hB, hR, hBon, rfl⟩ :=
    analyze_sentence_ok_inv h
  exact computeClass_ok_eq hcls

/-- Witness for the amended C6: a concrete run assigning the non-default
class. -/
theorem C6_witness :
    aC10.semantic_class =
      (if valuesClassCond Abase.sc aC10.features then "values_non_operational"
       else "operational_or_mixed") :=
  C6_only_values_class Abase sC10 aC10 rfl

/-- C3 counterexample: with the required lexicon key `outcome_verbs` missing,
constructing the `Analyzer` *succeeds*, and the missing-key error is first
raised during `analyze_sentence`. -/
theorem C3_counterexample :
    (Analyzer.init rawMissingLex).isOk = true ∧
    (Analyzer.init rawMissingLex).bind
        (fun A => A.analyze_sentence (strL "x")) = .error "outcome_verbs" := by
  constructor <;> rfl

/-- C3 (amended): only the five regex keys are checked at load time — a
configuration missing any one of them makes `Analyzer.__init__` fail. -/
theorem C3_regex_fail_fast (raw : RawConfig) (k : String)
    (hk : k ∈ ["number_unit", "timeframe", "baseline", "scope", "passive"])
    (hmiss : lookup raw.rx k = none) :
    (Analyzer.init raw).isOk = false := by
  simp only [List.mem_cons, List.not_mem_nil, or_false] at hk
  unfold Analyzer.init
  rcases hk with rfl | rfl | rfl | rfl | rfl <;>
    (repeat' split) <;> first | rfl | simp_all [getKey]

/-- Witness for the amended C3 at a concrete configuration missing the
`baseline` regex key. -/
theorem C3_regex_fail_fast_witness : (Analyzer.init rawMissingRx).isOk = false :=
  C3_regex_fail_fast rawMissingRx "baseline" (by decide) rfl

theorem scanPhrase_eq_specOccs (text_l p_l original : Str) :
    ∀ (fuel start : Nat), scanPhrase text_l p_l original start fuel =
      (specOccs text_l p_l start fuel).map
        (fun idx => ⟨idx, idx + p_l.length,
          slice original idx (idx + p_l.length)⟩) := by
  intro fuel
  induction fuel with
  | zero => intro start; rfl
  | succ n ih =>
    intro start
    rw [scanPhrase, specOccs]
    cases strFind text_l p_l start with
    | none => rfl
    | some idx => simp [ih]

theorem find_phrase_spans_loop_eq (text_l original : Str) :
    ∀ (ps : List Str) (acc : List Span),
      find_phrase_spans_loop text_l original acc ps =
        acc ++ specPhraseSpans text_l ps original := by
  intro ps
  induction ps with
  | nil => intro acc; simp [find_phrase_spans_loop, specPhraseSpans]
  | cons p ps ih =>
    intro acc
    rw [find_phrase_spans_loop, ih]
    simp [specPhraseSpans, scanPhrase_eq_specOccs]

/-- C7: phrase-mode matching agrees with the spec's description — for each
phrase, in phrase-list order, the case-insensitive non-overlapping
left-to-right occurrences (search resuming at each match's end), with all
matches concatenated in phrase-list order rather than sentence order. -/
theorem C7_phrase_mode (text_l : Str) (phrases : List Str) (original : Str) :
    find_phrase_spans text_l phrases original =
      specPhraseSpans text_l phrases original := by
  rw [find_phrase_spans, find_phrase_spans_loop_eq, List.nil_append]

/-- C8 counterexample: a sentence with `outcome_present` true and metric,
baseline, scope, mechanism all absent can still produce a *fifth* flag
(here `buzzword_no_mechanism`), so "exactly four" fails as stated. -/
theorem C8_counterexample :
    (Abase.analyze_sentence (strL "Boost synergy.")).toOption.map
        (fun a => (a.features.outcome_present, a.features.metric_present,
          a.features.baseline_present, a.features.scope_present,
          a.features.mechanism_present, a.flags.map Flag.type)) =
      some (true, false, false, false, false,
        ["outcome_without_metric", "outcome_without_baseline",
         "outcome_without_scope", "buzzword_no_mechanism",
         "outcome_without_mechanism"]) := by
  rfl

/-- C8 (amended): under the stated feature assumptions *and* provided no
other penalty rule triggers (speed-without-timeframe, proof, buzzword,
process-language, passive, superlative), the flag list consists of exactly
the four outcome flags, in source order. -/
theorem C8_outcome_flags (A : Analyzer) (s : Str) (a : SentenceAnalysis)
    (h : A.analyze_sentence s = .ok a)
    (ho : a.features.outcome_present = true)
    (hm : a.features.metric_present = false)
    (hb : a.features.baseline_present = false)
    (hs : a.features.scope_present = false)
    (hme : a.features.mechanism_present = false)
    (hsp : (a.features.speed_present && !a.features.timeframe_present) = false)
    (hpr : a.features.proof_implied = false)
    (hbz : a.features.buzzword_present = false)
    (hps : a.features.passive_present = false)
    (hsu : a.features.superlative_present = false)
    (hproc : process_search (lowerStr s) = false) :
    a.flags.map Flag.type =
      ["outcome_without_metric", "outcome_without_baseline",
       "outcome_without_scope", "outcome_without_mechanism"] := by
  obtain ⟨L, cls, P, B, flags, pen, bon, hL, hcls, hP, hB, hR, hBon, rfl⟩ :=
    analyze_sentence_ok_inv h
  obtain ⟨hfl, -⟩ := applyRules_ok_inv hR
  subst hfl
  dsimp only at ho hm hb hs hme hsp hpr hbz hps hsu ⊢
  simp [ruleEntries, ho, hm, hb, hs, hme, hsp, hpr, hbz, hps, hsu, hproc,
    List.filter, make_flag]

/-- Witness for the amended C8: a concrete sentence producing exactly the
four outcome flags. -/
theorem C8_witness :
    aC1.flags.map Flag.type =
      ["outcome_without_metric", "outcome_without_baseline",
       "outcome_without_scope", "outcome_without_mechanism"] :=
  C8_outcome_flags Abase sC1 aC1 rfl rfl rfl rfl rfl rfl rfl rfl rfl rfl rfl rfl

theorem computeSpans_congr {A1 A2 : Analyzer}
    (h1 : A2.re_number_unit = A1.re_number_unit)
    (h2 : A2.re_timeframe = A1.re_timeframe)
    (h3 : A2.re_baseline = A1.re_baseline)
    (h4 : A2.re_scope = A1.re_scope)
    (h5 : A2.re_passive = A1.re_passive)
    (L : Lex8) (s s_l : Str) :
    computeSpans A2 L s s_l = computeSpans A1 L s s_l := by
  unfold computeSpans
  rw [h1, h2, h3, h4, h5]

theorem name_count_pos_iff {L : List RuleEntry} {nm : String} :
    nm ∈ L.map RuleEntry.name ↔
      0 < (L.filter (fun e => e.name = nm)).length := by
  constructor
  · intro h
    obtain ⟨e, he, hname⟩ := List.mem_map.mp h
    exact List.length_pos.mpr (List.ne_nil_of_mem
      (List.mem_filter.mpr ⟨he, by simp [hname]⟩))
  · intro h
    obtain ⟨e, he⟩ := List.exists_mem_of_length_pos h
    obtain ⟨hL, hname⟩ := List.mem_filter.mp he
    exact List.mem_map.mpr ⟨e, hL, by simpa using hname⟩

theorem name_filter_length_le_one {l : List RuleEntry} {nm : String}
    (hnodup : (l.map RuleEntry.name).Nodup) :
    (l.filter (fun e => e.name = nm)).length ≤ 1 := by
  induction l with
  | nil => simp
  | cons e l ih =>
    rw [List.map_cons, List.nodup_cons] at hnodup
    obtain ⟨hn, hnd⟩ := hnodup
    by_cases hnm : e.name = nm
    · rw [List.filter_cons_of_pos (by simp [hnm])]
      have hnil : l.filter (fun x => x.name = nm) = [] := by
        rw [List.filter_eq_nil_iff]
        intro x hx hxe
        apply hn
        rw [List.mem_map]
        refine ⟨x, hx, ?_⟩
        rw [hnm]
        simpa using hxe
      rw [hnil]
      simp
    · rw [List.filter_cons_of_neg (by simp [hnm])]
      exact ih hnd

theorem sublist_name_filter {l : List RuleEntry} {nm : String}
    (p : RuleEntry → Bool) :
    ((l.filter p).filter (fun e => e.name = nm)).length ≤
      (l.filter (fun e => e.name = nm)).length :=
  (List.Sublist.filter _ (List.filter_sublist l)).length_le

theorem applyRules_agree {P1 P2 : List (String × Int)} {nm : String} {w1 w2 : Int}
    (hagree : ∀ k, k ≠ nm → lookup P2 k = lookup P1 k)
    (hw1 : lookup P1 nm = some w1) (hw2 : lookup P2 nm = some w2) :
    ∀ {entries : List RuleEntry} {fl1 fl2 : List Flag} {pen1 pen2 : Int},
      applyRules P1 entries = .ok (fl1, pen1) →
      applyRules P2 entries = .ok (fl2, pen2) →
      fl1 = fl2 ∧
      pen1 - pen2 = (((entries.filter RuleEntry.trigger).filter
          (fun e => e.name = nm)).length : Int) * (w1 - w2) := by
  intro entries
  induction entries with
  | nil =>
    intro fl1 fl2 pen1 pen2 h1 h2
    rw [applyRules] at h1 h2
    obtain ⟨hA, hB⟩ := Prod.mk.injEq .. ▸ Except.ok.inj h1
    obtain ⟨hC, hD⟩ := Prod.mk.injEq .. ▸ Except.ok.inj h2
    subst hA hB hC hD
    simp
  | cons e rest ih =>
    intro fl1 fl2 pen1 pen2 h1 h2
    rw [applyRules] at h1 h2
    by_cases ht : e.trigger = true
    · rw [if_pos ht] at h1 h2
      cases hv1 : getKey P1 e.name with
      | error err => rw [hv1] at h1; exact absurd h1 (by simp)
      | ok v1 =>
        rw [hv1] at h1
        cases hr1 : applyRules P1 rest with
        | error err => rw [hr1] at h1; exact absurd h1 (by simp)
        | ok pr1 =>
          obtain ⟨fs1, pn1⟩ := pr1
          rw [hr1] at h1
          obtain ⟨hA, hB⟩ := Prod.mk.injEq .. ▸ Except.ok.inj h1
          cases hv2 : getKey P2 e.name with
          | error err => rw [hv2] at h2; exact absurd h2 (by simp)
          | ok v2 =>
            rw [hv2] at h2
            cases hr2 : applyRules P2 rest with
            | error err => rw [hr2] at h2; exact absurd h2 (by simp)
            | ok pr2 =>
              obtain ⟨fs2, pn2⟩ := pr2
              rw [hr2] at h2
              obtain ⟨hC, hD⟩ := Prod.mk.injEq .. ▸ Except.ok.inj h2
              obtain ⟨hfl, hpen⟩ := ih hr1 hr2
              subst hA hB hC hD
              rw [getKey_ok_iff] at hv1 hv2
              refine ⟨by rw [hfl], ?_⟩
              rw [List.filter_cons_of_pos ht]
              by_cases hnm : e.name = nm
              · rw [hnm] at hv1 hv2
                rw [hw1] at hv1
                rw [hw2] at hv2
                obtain rfl := Option.some.inj hv1
                obtain rfl := Option.some.inj hv2
                rw [List.filter_cons_of_pos (by simp [hnm])]
                rw [List.length_cons]
                have hexp : ((((rest.filter RuleEntry.trigger).filter
                    (fun e => e.name = nm)).length + 1 : ℕ) : ℤ) * (w1 - w2) =
                    (((rest.filter RuleEntry.trigger).filter
                      (fun e => e.name = nm)).length : ℤ) * (w1 - w2) + (w1 - w2) := by
                  push_cast
                  ring
                rw [hexp]
                linarith [hpen]
              · have := hagree e.name hnm
                rw [hv1] at this
                rw [hv2] at this
                obtain rfl := Option.some.inj this
                rw [List.filter_cons_of_neg (by simp [hnm])]
                linarith [hpen]
    · rw [if_neg ht] at h1 h2
      obtain ⟨hfl, hpen⟩ := ih h1 h2
      rw [List.filter_cons_of_neg ht]
      exact ⟨hfl, hpen⟩

/-- C5 counterexample: two configurations differing only in the
`outcome_without_metric` weight (10 vs 200); the sentence triggers that rule,
yet the total scores (10 and 100, the latter clamped) do not differ by the
weight delta 190. -/
theorem C5_counterexample :
    (A5a.analyze_sentence sC1).toOption.map SentenceAnalysis.total_score = some 10 ∧
    (A5b.analyze_sentence sC1).toOption.map SentenceAnalysis.total_score = some 100 ∧
    (A5a.analyze_sentence sC1).toOption.map
        (fun a => decide ("outcome_without_metric" ∈ a.flags.map Flag.type)) = some true ∧
    (10 : Int) - 100 ≠ 10 - 200 := by
  refine ⟨rfl, rfl, rfl, by decide⟩

/-- C5 (amended): for two configurations differing only in the weight of one
penalty rule, the *unclamped* penalty totals of a triggering sentence differ
by exactly the weight delta (and the total scores do, provided neither raw
score is clamped), while a non-triggering sentence gets an identical
analysis. -/
theorem C5_weight_delta (A1 A2 : Analyzer) (nm : String) (w1 w2 : Int)
    (P1 P2 : List (String × Int)) (s : Str) (a1 a2 : SentenceAnalysis)
    (hlex : A2.lex = A1.lex) (hsc : A2.sc = A1.sc)
    (hx1 : A2.re_number_unit = A1.re_number_unit)
    (hx2 : A2.re_timeframe = A1.re_timeframe)
    (hx3 : A2.re_baseline = A1.re_baseline)
    (hx4 : A2.re_scope = A1.re_scope)
    (hx5 : A2.re_passive = A1.re_passive)
    (hP1 : lookup A1.wt "penalties" = some P1)
    (hP2 : lookup A2.wt "penalties" = some P2)
    (hBeq : lookup A2.wt "bonuses" = lookup A1.wt "bonuses")
    (hagree : ∀ k, k ≠ nm → lookup P2 k = lookup P1 k)
    (hw1 : lookup P1 nm = some w1) (hw2 : lookup P2 nm = some w2)
    (h1 : A1.analyze_sentence s = .ok a1) (h2 : A2.analyze_sentence s = .ok a2) :
    (nm ∈ a1.flags.map Flag.type →
        a1.score_breakdown.penalties - a2.score_breakdown.penalties = w1 - w2 ∧
        a1.score_breakdown.bonus = a2.score_breakdown.bonus ∧
        (0 ≤ a1.score_breakdown.penalties - a1.score_breakdown.bonus →
         a1.score_breakdown.penalties - a1.score_breakdown.bonus ≤ 100 →
         0 ≤ a2.score_breakdown.penalties - a2.score_breakdown.bonus →
         a2.score_breakdown.penalties - a2.score_breakdown.bonus ≤ 100 →
         a1.total_score - a2.total_score = w1 - w2)) ∧
    (nm ∉ a1.flags.map Flag.type → a1 = a2) := by
  obtain ⟨L1, cls1, P1', B1, fl1, pen1, bon1, hL1, hcls1, hP1', hB1, hR1, hBon1, rfl⟩ :=
    analyze_sentence_ok_inv h1
  obtain ⟨L2, cls2, P2', B2, fl2, pen2, bon2, hL2, hcls2, hP2', hB2, hR2, hBon2, rfl⟩ :=
    analyze_sentence_ok_inv h2
  rw [hlex, hL1] at hL2
  obtain rfl := Except.ok.inj hL2
  have hspans := computeSpans_congr hx1 hx2 hx3 hx4 hx5 L1 s (lowerStr s)
  rw [hspans] at hcls2 hR2 hBon2 ⊢
  rw [hsc, hcls1] at hcls2
  obtain rfl := Except.ok.inj hcls2
  rw [getKey_ok_iff] at hP1' hP2' hB1 hB2
  rw [hP1'] at hP1
  obtain rfl := Option.some.inj hP1
  rw [hP2'] at hP2
  obtain rfl := Option.some.inj hP2
  rw [hB2, hB1] at hBeq
  obtain rfl := Option.some.inj hBeq
  rw [hBon1] at hBon2
  obtain rfl := Except.ok.inj hBon2
  obtain ⟨hfl, hpen⟩ := applyRules_agree hagree hw1 hw2 hR1 hR2
  obtain rfl := hfl
  have htypes : fl1.map Flag.type =
      ((ruleEntries (computeFeatures (computeSpans A1 L1 s (lowerStr s)))
        (computeSpans A1 L1 s (lowerStr s)) s (lowerStr s)).filter
          RuleEntry.trigger).map RuleEntry.name := by
    rw [(applyRules_ok_inv hR1).1]
    simp [make_flag]
  have hnodup : ((ruleEntries (computeFeatures (computeSpans A1 L1 s (lowerStr s)))
      (computeSpans A1 L1 s (lowerStr s)) s (lowerStr s)).map RuleEntry.name).Nodup := by
    have : (ruleEntries (computeFeatures (computeSpans A1 L1 s (lowerStr s)))
        (computeSpans A1 L1 s (lowerStr s)) s (lowerStr s)).map RuleEntry.name =
        ["outcome_without_metric", "speed_without_timeframe",
         "outcome_without_baseline", "outcome_without_scope",
         "proof_implied_no_evidence", "buzzword_no_mechanism",
         "outcome_without_mechanism", "process_no_levers",
         "passive_voice", "superlative_unbounded"] := rfl
    rw [this]
    decide
  constructor
  · intro hmem
    dsimp only at hmem
    rw [htypes, name_count_pos_iff] at hmem
    have hle : (((ruleEntries (computeFeatures (computeSpans A1 L1 s (lowerStr s)))
        (computeSpans A1 L1 s (lowerStr s)) s (lowerStr s)).filter
          RuleEntry.trigger).filter (fun e => e.name = nm)).length ≤ 1 :=
      le_trans (sublist_name_filter RuleEntry.trigger)
        (name_filter_length_le_one hnodup)
    have hcount : (((ruleEntries (computeFeatures (computeSpans A1 L1 s (lowerStr s)))
        (computeSpans A1 L1 s (lowerStr s)) s (lowerStr s)).filter
          RuleEntry.trigger).filter (fun e => e.name = nm)).length = 1 := by omega
    rw [hcount] at hpen
    simp only [Nat.cast_one, one_mul] at hpen
    refine ⟨hpen, rfl, ?_⟩
    dsimp only
    intro hb1 hb2 hb3 hb4
    omega
  · intro hmem
    dsimp only at hmem
    rw [htypes, name_count_pos_iff] at hmem
    have hcount : (((ruleEntries (computeFeatures (computeSpans A1 L1 s (lowerStr s)))
        (computeSpans A1 L1 s (lowerStr s)) s (lowerStr s)).filter
          RuleEntry.trigger).filter (fun e => e.name = nm)).length = 0 := by omega
    rw [hcount] at hpen
    simp only [Nat.cast_zero, zero_mul] at hpen
    have : pen1 = pen2 := by omega
    obtain rfl := this
    rfl

/-- Witness for the amended C5, at the two concrete configurations of the
counterexample and a triggering sentence. -/
theorem C5_witness :
    ("outcome_without_metric" ∈ aC5a.flags.map Flag.type →
        aC5a.score_breakdown.penalties - aC5b.score_breakdown.penalties = 10 - 200 ∧
        aC5a.score_breakdown.bonus = aC5b.score_breakdown.bonus ∧
        (0 ≤ aC5a.score_breakdown.penalties - aC5a.score_breakdown.bonus →
         aC5a.score_breakdown.penalties - aC5a.score_breakdown.bonus ≤ 100 →
         0 ≤ aC5b.score_breakdown.penalties - aC5b.score_breakdown.bonus →
         aC5b.score_breakdown.penalties - aC5b.score_breakdown.bonus ≤ 100 →
         aC5a.total_score - aC5b.total_score = 10 - 200)) ∧
    ("outcome_without_metric" ∉ aC5a.flags.map Flag.type → aC5a = aC5b) :=
  C5_weight_delta A5a A5b "outcome_without_metric" 10 200 penLow penHigh sC1 aC5a aC5b
    rfl rfl rfl rfl rfl rfl rfl rfl rfl rfl
    (by
      intro k hk
      have hk' : ¬("outcome_without_metric" = k) := fun h => hk h.symm
      simp only [penHigh, penLow, lookup, if_neg hk'])
    rfl rfl rfl rfl

/-- Successful non-empty `analyze_text`, written as the explicit record the
source builds. -/
theorem analyze_text_ok_of_mapExcept {A : Analyzer} {t : Str}
    {analyses : List SentenceAnalysis}
    (hm : mapExcept A.analyze_sentence (split_sentences t) = .ok analyses)
    (hne : analyses.isEmpty = false) :
    A.analyze_text t = .ok
      ⟨⟨pyRound1 ((((analyses.map SentenceAnalysis.total_score).sum : ℤ) : ℚ) /
          ((analyses.map SentenceAnalysis.total_score).length : ℚ)),
        some (pyMax (analyses.map SentenceAnalysis.total_score)),
        some (pyRound1 (100 * (((analyses.map SentenceAnalysis.total_score).filter
            (fun x => 51 ≤ x)).length : ℚ) /
          ((analyses.map SentenceAnalysis.total_score).length : ℚ))),
        labelOf ((((analyses.map SentenceAnalysis.total_score).sum : ℤ) : ℚ) /
          ((analyses.map SentenceAnalysis.total_score).length : ℚ)),
        analyses.length⟩, analyses⟩ := by
  unfold Analyzer.analyze_text
  rw [hm]
  dsimp only
  rw [hne]
  rfl

/-- C4 counterexample: a 25-sentence document with scores `[26, 25 × 24]`.
The reported `score_mean` is `25.0` (mean `25.04` rounded to one decimal),
for which the claimed threshold mapping gives "Solid / operational", yet the
code labels the document "Soft marketing" (it applies the thresholds to the
unrounded mean `25.04 > 25`). -/
theorem C4_counterexample :
    (A4.analyze_text T4).toOption.map
        (fun r => (r.overall.score_mean, r.overall.label)) =
      some (25, "Soft marketing") ∧
    labelOf 25 = "Solid / operational" := by
  constructor
  · have hm : mapExcept A4.analyze_sentence (split_sentences T4) = .ok analysesC4 := rfl
    have hne : analysesC4.isEmpty = false := rfl
    rw [analyze_text_ok_of_mapExcept hm hne]
    have hs : analysesC4.map SentenceAnalysis.total_score =
        26 :: List.replicate 24 25 := rfl
    rw [hs]
    have hsum : (26 :: List.replicate 24 25 : List ℤ).sum = 626 := by decide
    have hlen : (26 :: List.replicate 24 25 : List ℤ).length = 25 := by decide
    rw [hsum, hlen]
    simp only [Except.toOption, Option.map, Option.some.injEq, Prod.mk.injEq]
    constructor
    · norm_num [pyRound1, rhe]
    · rw [labelOf, if_neg (by norm_num), if_pos (by norm_num)]
  · rw [labelOf, if_pos (by norm_num)]

/-- C4 (amended): for a non-empty document, the label is derived by the
four-way threshold from the *unrounded* arithmetic mean of the sentence
scores; `score_mean` reports that mean rounded to one decimal. -/
theorem C4_label_from_unrounded_mean (A : Analyzer) (t : Str) (r : TextResult)
    (h : A.analyze_text t = .ok r) (hne : r.sentences ≠ []) :
    r.overall.label =
      labelOf ((((r.sentences.map SentenceAnalysis.total_score).sum : ℤ) : ℚ) /
        ((r.sentences.map SentenceAnalysis.total_score).length : ℚ)) ∧
    r.overall.score_mean =
      pyRound1 ((((r.sentences.map SentenceAnalysis.total_score).sum : ℤ) : ℚ) /
        ((r.sentences.map SentenceAnalysis.total_score).length : ℚ)) := by
  unfold Analyzer.analyze_text at h
  cases hm : mapExcept A.analyze_sentence (split_sentences t) with
  | error e => rw [hm] at h; exact absurd h (by simp)
  | ok analyses =>
    rw [hm] at h
    dsimp only at h
    by_cases hemp : analyses.isEmpty = true
    · rw [if_pos hemp] at h
      obtain rfl := (Except.ok.inj h).symm
      exact absurd rfl hne
    · rw [if_neg hemp] at h
      obtain rfl := (Except.ok.inj h).symm
      exact ⟨rfl, rfl⟩

/-- Witness for the amended C4 at a concrete two-sentence document. -/
theorem C4_witness :
    rC4w.overall.label =
      labelOf ((((rC4w.sentences.map SentenceAnalysis.total_score).sum : ℤ) : ℚ) /
        ((rC4w.sentences.map SentenceAnalysis.total_score).length : ℚ)) ∧
    rC4w.overall.score_mean =
      pyRound1 ((((rC4w.sentences.map SentenceAnalysis.total_score).sum : ℤ) : ℚ) /
        ((rC4w.sentences.map SentenceAnalysis.total_score).length : ℚ)) :=
  C4_label_from_unrounded_mean Abase tC4w rC4w rfl (by decide)

end Claimbs
